import Mathlib

/-!
Shallow embedding of the Sampling & Anomaly-Detection Engine of
`augment_secret_detector.py` (class `AugmentSecretDetector`).

Python floats are modelled as rationals (`ℚ`); OS byte counters as
naturals; fallible psutil counter reads as an explicit outcome type
(`CounterRead`), distinguishing a successful read, a `None` result,
and a raised exception.  The one-second blocking CPU sampling loop is
idealised as discrete time: the k-th iteration reads the k-th value of
an injected series, and each iteration consumes exactly one second, so
a run of integer duration `d` performs `max d 0` iterations.  A Python
`ZeroDivisionError` (averaging an empty reading list) is modelled as
`Option.none`.
-/

namespace AugmentDetector

/-- Substring test on character lists: `containsSub needle hay` holds
iff `needle` occurs contiguously inside `hay`.  Used to embed both
Python's `in` on strings and the `*pat*` filename globs. -/
def containsSub (needle : List Char) : List Char → Bool
  | [] => needle.isEmpty
  | c :: t => needle.isPrefixOf (c :: t) || containsSub needle t

/-- `strContains hay needle` embeds Python's `needle in hay`. -/
def strContains (hay needle : String) : Bool :=
  containsSub needle.toList hay.toList

/-- Python's `str.lower()` as a character list (the names involved are
ASCII, where `Char.toLower` agrees with Python). -/
def lowerChars (s : String) : List Char :=
  s.toList.map Char.toLower

/-- Threshold configuration of one detector instance
(`AugmentSecretDetector.__init__`): `cpu_threshold` percent,
`disk_threshold` MB per 2-second window, `network_threshold` MB per
1-second window, `monitoring_duration` seconds (an `int` in the CLI). -/
structure Config where
  cpu_threshold : ℚ
  monitoring_duration : ℤ
  disk_threshold : ℚ
  network_threshold : ℚ
deriving DecidableEq

/-- A `psutil.disk_io_counters()` snapshot (the two fields the code reads). -/
structure DiskCounters where
  read_bytes : ℕ
  write_bytes : ℕ
deriving DecidableEq

/-- A `psutil.net_io_counters()` snapshot (the two fields the code reads). -/
structure NetCounters where
  bytes_sent : ℕ
  bytes_recv : ℕ
deriving DecidableEq

/-- Outcome of one psutil counter read: a value, a `None` result
  (counter unavailable), or a raised exception. -/
inductive CounterRead (α : Type) where
  | ok : α → CounterRead α
  | noData : CounterRead α
  | err : CounterRead α
deriving DecidableEq

/-- `read_delta_mb` of `detect_secrets_activity`
(line 187: `(io_end.read_bytes - io_start.read_bytes) / 1024 / 1024`). -/
def read_delta_mb (s e : DiskCounters) : ℚ :=
  ((e.read_bytes : ℚ) - (s.read_bytes : ℚ)) / 1024 / 1024

/-- `write_delta_mb` of `detect_secrets_activity` (line 188). -/
def write_delta_mb (s e : DiskCounters) : ℚ :=
  ((e.write_bytes : ℚ) - (s.write_bytes : ℚ)) / 1024 / 1024

/-- `sent_delta_mb` of `detect_secrets_activity` (line 208). -/
def sent_delta_mb (s e : NetCounters) : ℚ :=
  ((e.bytes_sent : ℚ) - (s.bytes_sent : ℚ)) / 1024 / 1024

/-- `recv_delta_mb` of `detect_secrets_activity` (line 209). -/
def recv_delta_mb (s e : NetCounters) : ℚ :=
  ((e.bytes_recv : ℚ) - (s.bytes_recv : ℚ)) / 1024 / 1024

/-- The first `try` block of `detect_secrets_activity` (lines 180-198):
indicators contributed by the disk delta window.  An exception at
either snapshot is caught by the surrounding `except` (result: no
indicator); a `None` snapshot fails the `if io_start and io_end`
guard (result: no indicator); otherwise `high_disk_io` is appended
iff either delta strictly exceeds the threshold. -/
def diskIndicators (th : ℚ) : CounterRead DiskCounters → CounterRead DiskCounters →
    List String
  | .err, _ => []
  | _, .err => []
  | .noData, _ => []
  | _, .noData => []
  | .ok s, .ok e =>
    if read_delta_mb s e > th ∨ write_delta_mb s e > th then ["high_disk_io"] else []

/-- The second `try` block of `detect_secrets_activity` (lines 201-219):
indicators contributed by the network delta window, same failure
handling as the disk block. -/
def netIndicators (th : ℚ) : CounterRead NetCounters → CounterRead NetCounters →
    List String
  | .err, _ => []
  | _, .err => []
  | .noData, _ => []
  | _, .noData => []
  | .ok s, .ok e =>
    if sent_delta_mb s e > th ∨ recv_delta_mb s e > th then ["high_network_io"] else []

/-- `detect_secrets_activity` (lines 173-221): runs the disk block, then
the network block, each wrapped in its own `try/except`, and returns
the accumulated `secrets_indicators` list.  The function itself never
raises: all per-metric failures are degraded to "no indicator". -/
def detect_secrets_activity (cfg : Config)
    (d1 d2 : CounterRead DiskCounters) (n1 n2 : CounterRead NetCounters) :
    List String :=
  diskIndicators cfg.disk_threshold d1 d2 ++ netIndicators cfg.network_threshold n1 n2

/-- One process as the correlator's second pass sees it: pid, name,
the `cpu_percent()` reading, rss bytes, and whether the process was
still readable (`alive = false` models `NoSuchProcess`/`AccessDenied`,
which the code skips with `continue`). -/
structure ProcSnapshot where
  pid : ℕ
  name : String
  cpu_percent : ℚ
  rss : ℕ
  alive : Bool
deriving DecidableEq

/-- One entry of the `augment_processes` list built by
`analyze_processes` (lines 152-157). -/
structure ProcessData where
  pid : ℕ
  name : String
  cpu_percent : ℚ
  memory_mb : ℚ
deriving DecidableEq

/-- The keyword set of `analyze_processes` (line 148). -/
def process_keywords : List String := ["augment", "vscode", "code"]

/-- Line 148: `any(keyword in proc_name for keyword in [...])` on the
lower-cased process name. -/
def matchesKeyword (name : String) : Bool :=
  process_keywords.any fun k => containsSub k.toList (lowerChars name)

/-- Line 163: `normalized_threshold = 80 / cpu_cores`. -/
def normalized_threshold (cores : ℕ) : ℚ := 80 / (cores : ℚ)

/-- `analyze_processes` (lines 126-171): the second enumeration pass.
Vanished or access-denied processes are skipped; a process whose
lower-cased name contains one of the keywords is appended with its CPU
reading and rss converted to MB.  (The first priming pass and the
100 ms sleep only affect measurement accuracy, not the returned list.) -/
def analyze_processes (procs : List ProcSnapshot) : List ProcessData :=
  procs.filterMap fun p =>
    if p.alive && matchesKeyword p.name then
      some ⟨p.pid, p.name, p.cpu_percent, (p.rss : ℚ) / 1024 / 1024⟩
    else none

/-- The processes `analyze_processes` flags (logs) as high-CPU
(line 165): those of its result with `cpu_usage > normalized_threshold`. -/
def flaggedHighCpu (cores : ℕ) (procs : List ProcSnapshot) : List ProcessData :=
  (analyze_processes procs).filter fun pd =>
    pd.cpu_percent > normalized_threshold cores

/-- The result dict of `monitor_cpu_usage` (lines 119-124). -/
structure CpuAnalysis where
  average_cpu : ℚ
  peak_cpu : ℚ
  readings : List ℚ
  high_usage_detected : Bool
deriving DecidableEq

/-- Python's `max` on a list, as used on the (nonempty) reading list at
line 115; the `[]` case is unreachable there (Python would raise). -/
def pyMax : List ℚ → ℚ
  | [] => 0
  | x :: t => t.foldl max x

/-- The sampling loop of `monitor_cpu_usage` (lines 104-112), idealised
over discrete seconds: iteration `k` reads `env k`, appends it, and,
when the reading strictly exceeds `cpu_threshold`, invokes
`analyze_processes` — whose return value line 110 discards.  The pair
returned is (readings collected, number of `analyze_processes`
invocations triggered). -/
def monitorLoop (cfg : Config) (env : ℕ → ℚ) : List ℚ × ℕ :=
  (List.range cfg.monitoring_duration.toNat).foldl
    (fun acc k =>
      (acc.1 ++ [env k], if env k > cfg.cpu_threshold then acc.2 + 1 else acc.2))
    ([], 0)

/-- `monitor_cpu_usage` (lines 97-124).  With an empty reading list
(duration ≤ 0) line 114 divides by zero: modelled as `none`. -/
def monitor_cpu_usage (cfg : Config) (env : ℕ → ℚ) : Option CpuAnalysis :=
  let readings := (monitorLoop cfg env).1
  match readings with
  | [] => none
  | _ :: _ =>
    some ⟨readings.sum / (readings.length : ℚ), pyMax readings, readings,
          pyMax readings > cfg.cpu_threshold⟩

/-- One directory entry of an extensions root, as `Path.glob` sees it. -/
structure DirEntry where
  name : String
  is_dir : Bool
deriving DecidableEq

/-- One configured extensions root (`self.config_dirs`): whether it
exists and its entries in enumeration order. -/
structure ConfigDir where
  dirExists : Bool
  entries : List DirEntry
deriving DecidableEq

/-- The glob pattern cores of `find_augment_extensions` (lines 73-77):
`*augment*`, `*Augment*`, `*AUGMENT*`, kept as their literal middles. -/
def augment_patterns : List String := ["augment", "Augment", "AUGMENT"]

/-- `config_dir.glob("*pat*")` membership: the name contains `pat`
(case-sensitively) and, since `*` does not match a leading dot, the
name is not hidden. -/
def globMatch (pat name : String) : Bool :=
  !(['.'].isPrefixOf name.toList) && strContains name pat

/-- The scan of one root in `find_augment_extensions` (lines 79-90):
a missing root is skipped; otherwise, for each pattern in order, each
matching entry that is a directory is appended to the accumulated
`self.augment_dirs`. -/
def scanDir (cd : ConfigDir) (acc : List String) : List String :=
  if cd.dirExists then
    augment_patterns.foldl
      (fun a pat =>
        cd.entries.foldl
          (fun a2 e => if globMatch pat e.name && e.is_dir then a2 ++ [e.name] else a2)
          a)
      acc
  else acc

/-- `find_augment_extensions` (lines 69-95): folds every configured
root over the detector's accumulated `self.augment_dirs` state `st`
(never cleared between calls) and returns the new accumulated list. -/
def find_augment_extensions (dirs : List ConfigDir) (st : List String) : List String :=
  dirs.foldl (fun acc cd => scanDir cd acc) st

/-- The recommendation strings of `generate_report` (lines 234-245). -/
def recCpu : String := "High CPU usage detected - consider Augment version rollback"

/-- Disk-I/O recommendation string (line 239). -/
def recDisk : String := "High disk I/O detected - check for secrets processing"

/-- Network recommendation string (line 242). -/
def recNet : String := "High network activity detected - monitor secrets transmission"

/-- Process-cleanup recommendation string (line 245). -/
def recCleanup : String := "Multiple Augment processes detected - consider process cleanup"

/-- The report dict of `generate_report` (lines 225-232). -/
structure Report where
  timestamp : String
  cpu_analysis : CpuAnalysis
  augment_processes : List ProcessData
  secrets_indicators : List String
  augment_extensions : List String
  recommendations : List String
deriving DecidableEq

/-- `generate_report` (lines 223-253): assembles the report from the
injected data plus the wall-clock timestamp and the detector's
accumulated `self.augment_dirs`, then appends the four rule-driven
recommendations in fixed order.  (The JSON file write does not affect
the returned object.) -/
def generate_report (now : String) (augment_dirs : List String)
    (cpu_analysis : CpuAnalysis) (processes : List ProcessData)
    (secrets_indicators : List String) : Report :=
  { timestamp := now
    cpu_analysis := cpu_analysis
    augment_processes := processes
    secrets_indicators := secrets_indicators
    augment_extensions := augment_dirs
    recommendations :=
      (if cpu_analysis.high_usage_detected then [recCpu] else []) ++
      (if "high_disk_io" ∈ secrets_indicators then [recDisk] else []) ++
      (if "high_network_io" ∈ secrets_indicators then [recNet] else []) ++
      (if processes.length > 5 then [recCleanup] else []) }

/-- The injected outside world of one `run_detection` call:
the CPU series seen by the sampling loop, the process table seen by
the i-th `analyze_processes` invocation (triggered passes consume
indices 0, 1, … in order; the post-loop pass uses the next index),
the counter snapshots, the extensions-root filesystem, and the clock. -/
structure RunEnv where
  cpu : ℕ → ℚ
  tables : ℕ → List ProcSnapshot
  d1 : CounterRead DiskCounters
  d2 : CounterRead DiskCounters
  n1 : CounterRead NetCounters
  n2 : CounterRead NetCounters
  fs : List ConfigDir
  now : String

/-- `run_detection` (lines 255-278) on a fresh detector
(`self.augment_dirs = []`): scan extensions, run the CPU monitoring
loop (its triggered `analyze_processes` calls consume tables
`0 … m-1` and are discarded), then run `analyze_processes` once more
(line 267, table `m`) for the report, then `detect_secrets_activity`,
then `generate_report`.  `none` models the uncaught
`ZeroDivisionError` of an empty reading list. -/
def run_detection (cfg : Config) (env : RunEnv) : Option Report :=
  let dirs := find_augment_extensions env.fs []
  match monitor_cpu_usage cfg env.cpu with
  | none => none
  | some cpuA =>
    let m := (monitorLoop cfg env.cpu).2
    let procs := analyze_processes (env.tables m)
    let inds := detect_secrets_activity cfg env.d1 env.d2 env.n1 env.n2
    some (generate_report env.now dirs cpuA procs inds)

/-! ### Helper lemmas -/

/-- The sampling loop unfolds to: readings are the CPU series over the
range of seconds, and the trigger count is the number of strictly
over-threshold readings. -/
lemma monitorLoop_foldl_spec (th : ℚ) (env : ℕ → ℚ) :
    ∀ (l : List ℕ) (r : List ℚ) (c : ℕ),
      l.foldl (fun acc k =>
          (acc.1 ++ [env k], if env k > th then acc.2 + 1 else acc.2)) (r, c)
        = (r ++ l.map env, c + (l.filter fun k => decide (env k > th)).length) := by
  intro l
  induction l with
  | nil => intro r c; simp
  | cons k t ih =>
    intro r c
    simp only [List.foldl_cons, List.map_cons, List.filter_cons]
    by_cases h : env k > th
    · rw [if_pos h, ih]
      simp only [Prod.mk.injEq, List.append_assoc, List.singleton_append, h]
      constructor
      · trivial
      · simp [h]
        omega
    · rw [if_neg h, ih]
      simp [h]

lemma monitorLoop_spec (cfg : Config) (env : ℕ → ℚ) :
    monitorLoop cfg env =
      ((List.range cfg.monitoring_duration.toNat).map env,
       ((List.range cfg.monitoring_duration.toNat).filter
          fun k => decide (env k > cfg.cpu_threshold)).length) := by
  unfold monitorLoop
  rw [monitorLoop_foldl_spec]
  simp

lemma self_le_foldl_max : ∀ (l : List ℚ) (x : ℚ), x ≤ l.foldl max x := by
  intro l
  induction l with
  | nil => intro x; simp
  | cons a t ih =>
    intro x
    simpa using le_trans (le_max_left x a) (ih (max x a))

lemma mem_le_foldl_max : ∀ (l : List ℚ) (x a : ℚ), a ∈ l → a ≤ l.foldl max x := by
  intro l
  induction l with
  | nil => intro x a h; simp at h
  | cons b t ih =>
    intro x a h
    rcases List.mem_cons.mp h with h1 | h2
    · subst h1
      simpa using le_trans (le_max_right x a) (self_le_foldl_max t (max x a))
    · simpa using ih (max x b) a h2

lemma foldl_max_mem : ∀ (l : List ℚ) (x : ℚ), l.foldl max x = x ∨ l.foldl max x ∈ l := by
  intro l
  induction l with
  | nil => intro x; simp
  | cons a t ih =>
    intro x
    simp only [List.foldl_cons]
    rcases ih (max x a) with h | h
    · rw [h]
      rcases max_choice x a with hx | ha
      · exact Or.inl hx
      · exact Or.inr (by rw [ha]; exact List.mem_cons_self a t)
    · exact Or.inr (List.mem_cons_of_mem a h)

lemma pyMax_mem : ∀ (l : List ℚ), l ≠ [] → pyMax l ∈ l := by
  intro l h
  match l with
  | [] => exact absurd rfl h
  | x :: t =>
    rcases foldl_max_mem t x with h1 | h1
    · rw [pyMax, h1]; exact List.mem_cons_self x t
    · rw [pyMax]; exact List.mem_cons_of_mem x h1

lemma le_pyMax : ∀ (l : List ℚ) (a : ℚ), a ∈ l → a ≤ pyMax l := by
  intro l a h
  match l with
  | [] => simp at h
  | x :: t =>
    rcases List.mem_cons.mp h with h1 | h2
    · subst h1; exact self_le_foldl_max t a
    · exact mem_le_foldl_max t x a h2

/-- One entries-fold of `scanDir` only appends: it decomposes as the
incoming accumulator followed by the fold from the empty list. -/
lemma entFold_append (pat : String) :
    ∀ (es : List DirEntry) (acc : List String),
      es.foldl (fun a2 e =>
          if globMatch pat e.name && e.is_dir then a2 ++ [e.name] else a2) acc
        = acc ++ es.foldl (fun a2 e =>
            if globMatch pat e.name && e.is_dir then a2 ++ [e.name] else a2) [] := by
  intro es
  induction es with
  | nil => intro acc; simp
  | cons e t ih =>
    intro acc
    simp only [List.foldl_cons]
    by_cases h : (globMatch pat e.name && e.is_dir) = true
    · rw [if_pos h, if_pos h, ih (acc ++ [e.name]), ih ([] ++ [e.name])]
      simp
    · rw [if_neg h, if_neg h, ih acc]

/-- The patterns-fold of `scanDir` likewise only appends. -/
lemma patFold_append (es : List DirEntry) :
    ∀ (ps : List String) (acc : List String),
      ps.foldl (fun a pat =>
          es.foldl (fun a2 e =>
            if globMatch pat e.name && e.is_dir then a2 ++ [e.name] else a2) a) acc
        = acc ++ ps.foldl (fun a pat =>
            es.foldl (fun a2 e =>
              if globMatch pat e.name && e.is_dir then a2 ++ [e.name] else a2) a) [] := by
  intro ps
  induction ps with
  | nil => intro acc; simp
  | cons p t ih =>
    intro acc
    simp only [List.foldl_cons]
    rw [entFold_append p es acc,
        ih (acc ++ es.foldl (fun a2 e =>
          if globMatch p e.name && e.is_dir then a2 ++ [e.name] else a2) []),
        ih (es.foldl (fun a2 e =>
          if globMatch p e.name && e.is_dir then a2 ++ [e.name] else a2) [])]
    simp [List.append_assoc]

lemma scanDir_append (cd : ConfigDir) (acc : List String) :
    scanDir cd acc = acc ++ scanDir cd [] := by
  unfold scanDir
  by_cases h : cd.dirExists = true
  · rw [if_pos h, if_pos h]
    exact patFold_append cd.entries augment_patterns acc
  · rw [if_neg h, if_neg h]
    simp

lemma find_append : ∀ (dirs : List ConfigDir) (st : List String),
    find_augment_extensions dirs st = st ++ find_augment_extensions dirs [] := by
  intro dirs
  induction dirs with
  | nil => intro st; simp [find_augment_extensions]
  | cons cd t ih =>
    intro st
    show find_augment_extensions t (scanDir cd st)
      = st ++ find_augment_extensions t (scanDir cd [])
    rw [ih (scanDir cd st), ih (scanDir cd []), scanDir_append cd st]
    simp [List.append_assoc]

/-! ### Claims -/

/-- C1, counterexample.  The claim says the computed rate is
`(end.value - start.value) / interval` with negative deltas clamped
to zero.  The code divides only by `1024 / 1024`: at a disk window
(interval 2 s) whose end counter is 2 MB below the start counter the
computed rate is `-2`, not `0`; and at one whose end counter is 4 MB
above the start the computed rate is `4`, not `4 / 2`. -/
theorem C1_counterexample :
    (read_delta_mb ⟨2097152, 0⟩ ⟨0, 0⟩ = -2 ∧ (-2 : ℚ) ≠ 0) ∧
    (read_delta_mb ⟨0, 0⟩ ⟨4194304, 0⟩ = 4 ∧ (4 : ℚ) ≠ 4 / 2) := by
  refine ⟨⟨?_, by norm_num⟩, ?_, by norm_num⟩ <;> norm_num [read_delta_mb]

/-- C1, amended: the computed disk/network rate is the raw MB delta
over the whole window (never divided by the interval length), and a
negative delta is passed through as a negative rate rather than
clamped to zero; a negative rate never strictly exceeds a nonnegative
threshold, so no indicator is emitted for it. -/
theorem C1_theorem (th : ℚ) (s e : DiskCounters) (ns ne : NetCounters)
    (hth : 0 ≤ th) :
    (e.read_bytes < s.read_bytes → read_delta_mb s e < 0) ∧
    (e.write_bytes < s.write_bytes → write_delta_mb s e < 0) ∧
    (ne.bytes_sent < ns.bytes_sent → sent_delta_mb ns ne < 0) ∧
    (ne.bytes_recv < ns.bytes_recv → recv_delta_mb ns ne < 0) ∧
    (read_delta_mb s e < 0 → write_delta_mb s e < 0 →
      diskIndicators th (CounterRead.ok s) (CounterRead.ok e) = []) ∧
    (sent_delta_mb ns ne < 0 → recv_delta_mb ns ne < 0 →
      netIndicators th (CounterRead.ok ns) (CounterRead.ok ne) = []) := by
  have hpos : (0 : ℚ) < 1024 := by norm_num
  refine ⟨?_, ?_, ?_, ?_, ?_, ?_⟩
  · intro h
    unfold read_delta_mb
    apply div_neg_of_neg_of_pos _ hpos
    apply div_neg_of_neg_of_pos _ hpos
    have : (e.read_bytes : ℚ) < (s.read_bytes : ℚ) := by exact_mod_cast h
    linarith
  · intro h
    unfold write_delta_mb
    apply div_neg_of_neg_of_pos _ hpos
    apply div_neg_of_neg_of_pos _ hpos
    have : (e.write_bytes : ℚ) < (s.write_bytes : ℚ) := by exact_mod_cast h
    linarith
  · intro h
    unfold sent_delta_mb
    apply div_neg_of_neg_of_pos _ hpos
    apply div_neg_of_neg_of_pos _ hpos
    have : (ne.bytes_sent : ℚ) < (ns.bytes_sent : ℚ) := by exact_mod_cast h
    linarith
  · intro h
    unfold recv_delta_mb
    apply div_neg_of_neg_of_pos _ hpos
    apply div_neg_of_neg_of_pos _ hpos
    have : (ne.bytes_recv : ℚ) < (ns.bytes_recv : ℚ) := by exact_mod_cast h
    linarith
  · intro h1 h2
    simp only [diskIndicators]
    rw [if_neg]
    rintro (h | h) <;> linarith
  · intro h1 h2
    simp only [netIndicators]
    rw [if_neg]
    rintro (h | h) <;> linarith

/-- C1, witness: at threshold 50 MB and a disk window whose counters
both decreased by 2 MB, both computed rates are negative and no
indicator is emitted. -/
theorem C1_theorem_witness :
    read_delta_mb ⟨2097152, 2097152⟩ ⟨0, 0⟩ < 0 ∧
    diskIndicators 50 (CounterRead.ok ⟨2097152, 2097152⟩) (CounterRead.ok ⟨0, 0⟩)
      = [] := by
  have h := C1_theorem 50 ⟨2097152, 2097152⟩ ⟨0, 0⟩ ⟨0, 0⟩ ⟨0, 0⟩ (by norm_num)
  exact ⟨h.1 (by norm_num), h.2.2.2.2.1
    (h.1 (by norm_num)) (h.2.1 (by norm_num))⟩

/-- C3: threshold comparisons are strict everywhere — a disk or
network window whose rates are at most (in particular, exactly equal
to) the threshold emits no indicator; a run in which every CPU reading
is at most (in particular, exactly equal to) `cpu_threshold` triggers
zero correlator passes and reports `high_usage_detected = false`. -/
theorem C3_theorem (cfg : Config) :
    (∀ s e : DiskCounters, read_delta_mb s e ≤ cfg.disk_threshold →
      write_delta_mb s e ≤ cfg.disk_threshold →
      diskIndicators cfg.disk_threshold (CounterRead.ok s) (CounterRead.ok e) = []) ∧
    (∀ ns ne : NetCounters, sent_delta_mb ns ne ≤ cfg.network_threshold →
      recv_delta_mb ns ne ≤ cfg.network_threshold →
      netIndicators cfg.network_threshold (CounterRead.ok ns) (CounterRead.ok ne) = []) ∧
    (∀ env : ℕ → ℚ, (∀ k, env k ≤ cfg.cpu_threshold) →
      (monitorLoop cfg env).2 = 0) ∧
    (∀ (env : ℕ → ℚ) (a : CpuAnalysis), (∀ k, env k ≤ cfg.cpu_threshold) →
      monitor_cpu_usage cfg env = some a → a.high_usage_detected = false) := by
  refine ⟨?_, ?_, ?_, ?_⟩
  · intro s e h1 h2
    simp only [diskIndicators]
    rw [if_neg]
    rintro (h | h) <;> linarith
  · intro ns ne h1 h2
    simp only [netIndicators]
    rw [if_neg]
    rintro (h | h) <;> linarith
  · intro env h
    rw [monitorLoop_spec]
    simp only [List.length_eq_zero, List.filter_eq_nil_iff]
    intro k _
    simpa using not_lt.mpr (h k)
  · intro env a h hm
    simp only [monitor_cpu_usage] at hm
    rcases hcase : (monitorLoop cfg env).1 with _ | ⟨x, t⟩ <;> rw [hcase] at hm
    · exact absurd hm (by simp)
    · have hsub : x :: t = (List.range cfg.monitoring_duration.toNat).map env := by
        rw [← hcase, monitorLoop_spec]
      have hmax : pyMax (x :: t) ≤ cfg.cpu_threshold := by
        have hmem := pyMax_mem (x :: t) (by simp)
        rw [hsub] at hmem
        rcases List.mem_map.mp hmem with ⟨k, _, hk⟩
        rw [hsub, ← hk]
        exact h k
      have ha : a.high_usage_detected
          = decide (pyMax (x :: t) > cfg.cpu_threshold) := by
        cases hm
        rfl
      rw [ha, decide_eq_false_iff_not]
      exact not_lt.mpr hmax

/-- C3, witness: with `disk_threshold = 50` a disk window whose read
delta is exactly 50 MB emits no indicator, and with
`cpu_threshold = 80` a run of three readings all exactly 80 triggers
zero correlator passes and no high-usage flag. -/
theorem C3_theorem_witness :
    diskIndicators 50 (CounterRead.ok ⟨0, 0⟩) (CounterRead.ok ⟨52428800, 0⟩) = [] ∧
    (monitorLoop ⟨80, 3, 50, 10⟩ (fun _ => 80)).2 = 0 ∧
    (monitor_cpu_usage ⟨80, 3, 50, 10⟩ (fun _ => 80)).map
      CpuAnalysis.high_usage_detected = some false := by
  have h := C3_theorem ⟨80, 3, 50, 10⟩
  have h1 : (monitorLoop ⟨80, 3, 50, 10⟩ (fun _ => 80)).1 = [80, 80, 80] := by
    rw [monitorLoop]; decide
  have hm : monitor_cpu_usage ⟨80, 3, 50, 10⟩ (fun _ => 80)
      = some ⟨80, 80, [80, 80, 80], false⟩ := by
    simp only [monitor_cpu_usage, h1]
    norm_num [pyMax, max_def]
  refine ⟨h.1 ⟨0, 0⟩ ⟨52428800, 0⟩ (by norm_num [read_delta_mb])
      (by norm_num [write_delta_mb]),
    h.2.2.1 (fun _ => 80) (fun _ => le_refl _), ?_⟩
  rw [show (false : Bool)
        = (⟨80, 80, [80, 80, 80], false⟩ : CpuAnalysis).high_usage_detected from
      (h.2.2.2 (fun _ => 80) ⟨80, 80, [80, 80, 80], false⟩
        (fun _ => le_refl _) hm).symm, hm]
  rfl

/-- C4: the correlator's effective per-process CPU threshold is
`80 / cores` (so 10 on an 8-core host), and a matched process is
flagged as high-CPU exactly when its measured `cpu_percent` strictly
exceeds that normalized threshold. -/
theorem C4_theorem :
    normalized_threshold 8 = 10 ∧
    (∀ cores : ℕ, normalized_threshold cores = 80 / (cores : ℚ)) ∧
    (∀ (cores : ℕ) (procs : List ProcSnapshot) (pd : ProcessData),
      pd ∈ flaggedHighCpu cores procs ↔
        pd ∈ analyze_processes procs ∧ normalized_threshold cores < pd.cpu_percent) := by
  refine ⟨by norm_num [normalized_threshold], fun cores => rfl, ?_⟩
  intro cores procs pd
  simp [flaggedHighCpu, List.mem_filter]

/-- C5: a successful monitoring run reports `peak_cpu` equal to the
maximum of the collected readings, `average_cpu` equal to their
arithmetic mean, and `high_usage_detected` iff the peak strictly
exceeds `cpu_threshold`. -/
theorem C5_theorem (cfg : Config) (env : ℕ → ℚ) (a : CpuAnalysis)
    (h : monitor_cpu_usage cfg env = some a) :
    a.readings ≠ [] ∧
    a.peak_cpu ∈ a.readings ∧
    (∀ x ∈ a.readings, x ≤ a.peak_cpu) ∧
    a.average_cpu = a.readings.sum / (a.readings.length : ℚ) ∧
    (a.high_usage_detected = true ↔ a.peak_cpu > cfg.cpu_threshold) := by
  simp only [monitor_cpu_usage] at h
  rcases hcase : (monitorLoop cfg env).1 with _ | ⟨x, t⟩ <;> rw [hcase] at h
  · exact absurd h (by simp)
  · cases h
    refine ⟨by simp, pyMax_mem (x :: t) (by simp),
      fun y hy => le_pyMax (x :: t) y hy, rfl, ?_⟩
    simp

/-- C5, witness: a two-second run reading 50 % then 70 % against an
80 % threshold yields peak 70, mean 60, and no high-usage flag. -/
theorem C5_theorem_witness :
    monitor_cpu_usage ⟨80, 2, 50, 10⟩ (fun k => if k = 0 then 50 else 70)
      = some ⟨60, 70, [50, 70], false⟩ ∧
    (70 : ℚ) ∈ [(50 : ℚ), 70] ∧ (60 : ℚ) = (50 + 70) / 2 := by
  have h1 : (monitorLoop ⟨80, 2, 50, 10⟩ (fun k => if k = 0 then 50 else 70)).1
      = [50, 70] := by
    rw [monitorLoop]; decide
  have hm : monitor_cpu_usage ⟨80, 2, 50, 10⟩ (fun k => if k = 0 then 50 else 70)
      = some ⟨60, 70, [50, 70], false⟩ := by
    simp only [monitor_cpu_usage, h1]
    norm_num [pyMax, max_def]
  have h := C5_theorem ⟨80, 2, 50, 10⟩ (fun k => if k = 0 then 50 else 70)
    ⟨60, 70, [50, 70], false⟩ hm
  exact ⟨hm, h.2.1, by norm_num⟩

/-- Configuration for the C2 run scenario: cpu_threshold 50, two
sampling seconds. -/
def cfgC2 : Config := ⟨50, 2, 50, 10⟩

/-- Environment for the C2 run scenario: both CPU readings are 60
(over threshold, so both trigger a correlator pass); the process
table differs between the first triggered pass (pid 1), the second
triggered pass (pid 2) and the post-loop pass (pid 3); disk/network
counters are unavailable; no extension roots. -/
def envC2 : RunEnv :=
  { cpu := fun _ => 60
    tables := fun i =>
      if i = 0 then [⟨1, "codeA", 5, 0, true⟩]
      else if i = 1 then [⟨2, "codeB", 5, 0, true⟩]
      else [⟨3, "codeC", 5, 0, true⟩]
    d1 := CounterRead.noData
    d2 := CounterRead.noData
    n1 := CounterRead.noData
    n2 := CounterRead.noData
    fs := []
    now := "t" }

/-- C2, counterexample.  In the C2 scenario both readings trigger a
correlator pass (trigger count 2) and the first triggered pass
produces the ProcessReading with pid 1, yet the final Report's
process list contains only pid 3 — the list produced by the single
post-loop `analyze_processes` call at line 267; line 110 discards the
triggered passes' results, so they are not appended into the report. -/
theorem C2_counterexample :
    (monitorLoop cfgC2 envC2.cpu).2 = 2 ∧
    (analyze_processes (envC2.tables 0)).map ProcessData.pid = [1] ∧
    (run_detection cfgC2 envC2).map
      (fun r => r.augment_processes.map ProcessData.pid) = some [3] ∧
    (1 : ℕ) ∉ ([3] : List ℕ) := by
  refine ⟨by rw [monitorLoop]; decide, by decide, ?_, by decide⟩
  rfl

/-- C2, amended: every CPU reading strictly exceeding `cpu_threshold`
triggers one correlator pass (the trigger count equals the number of
such readings), but the triggered passes' results are discarded: the
final Report's process list equals the output of the single
post-loop `analyze_processes` call, evaluated on the process table
seen after the triggered passes. -/
theorem C2_theorem (cfg : Config) (env : RunEnv) :
    (monitorLoop cfg env.cpu).2
      = ((List.range cfg.monitoring_duration.toNat).filter
          fun k => decide (env.cpu k > cfg.cpu_threshold)).length ∧
    (∀ r, run_detection cfg env = some r →
      r.augment_processes
        = analyze_processes (env.tables (monitorLoop cfg env.cpu).2)) := by
  refine ⟨by rw [monitorLoop_spec], ?_⟩
  intro r hr
  simp only [run_detection] at hr
  rcases hm : monitor_cpu_usage cfg env.cpu with _ | a <;> rw [hm] at hr
  · exact absurd hr (by simp)
  · cases hr
    rfl

/-- C2, witness: in the C2 scenario the report's process list is
exactly the post-loop pass on table index 2 (the trigger count). -/
theorem C2_theorem_witness :
    (run_detection cfgC2 envC2).map Report.augment_processes
      = some (analyze_processes (envC2.tables 2)) := by
  have hcount : (monitorLoop cfgC2 envC2.cpu).2 = 2 := by
    rw [monitorLoop]; decide
  have h1 : (monitorLoop cfgC2 envC2.cpu).1 = [60, 60] := by
    rw [monitorLoop]; decide
  rcases hr : run_detection cfgC2 envC2 with _ | r
  · exfalso
    simp only [run_detection, monitor_cpu_usage, h1] at hr
    exact absurd hr (by simp)
  · rw [show Option.map Report.augment_processes (some r)
          = some r.augment_processes from rfl,
        (C2_theorem cfgC2 envC2).2 r hr, hcount]

/-- C6: the recommendation set of a report is governed by exactly the
four fixed rules — version rollback iff `high_usage_detected`,
disk investigation iff the `high_disk_io` indicator is present,
network investigation iff `high_network_io` is present, and process
cleanup iff strictly more than 5 processes were correlated — and
contains nothing else. -/
theorem C6_theorem (now : String) (dirs : List String) (cpu : CpuAnalysis)
    (procs : List ProcessData) (inds : List String) :
    (recCpu ∈ (generate_report now dirs cpu procs inds).recommendations ↔
      cpu.high_usage_detected = true) ∧
    (recDisk ∈ (generate_report now dirs cpu procs inds).recommendations ↔
      "high_disk_io" ∈ inds) ∧
    (recNet ∈ (generate_report now dirs cpu procs inds).recommendations ↔
      "high_network_io" ∈ inds) ∧
    (recCleanup ∈ (generate_report now dirs cpu procs inds).recommendations ↔
      5 < procs.length) ∧
    (∀ s ∈ (generate_report now dirs cpu procs inds).recommendations,
      s = recCpu ∨ s = recDisk ∨ s = recNet ∨ s = recCleanup) := by
  have dCD : recCpu ≠ recDisk := by decide
  have dCN : recCpu ≠ recNet := by decide
  have dCC : recCpu ≠ recCleanup := by decide
  have dDN : recDisk ≠ recNet := by decide
  have dDC : recDisk ≠ recCleanup := by decide
  have dNC : recNet ≠ recCleanup := by decide
  by_cases h1 : cpu.high_usage_detected = true <;>
    by_cases h2 : "high_disk_io" ∈ inds <;>
    by_cases h3 : "high_network_io" ∈ inds <;>
    by_cases h4 : procs.length > 5 <;>
    simp_all [generate_report, dCD, dCN, dCC, dDN, dDC, dNC,
      dCD.symm, dCN.symm, dCC.symm, dDN.symm, dDC.symm, dNC.symm]

/-- C6, witness: with high CPU usage detected, a `high_disk_io`
indicator, no network indicator, and one correlated process, the
recommendations contain the rollback and disk suggestions and not
the network one. -/
theorem C6_theorem_witness :
    recCpu ∈ (generate_report "t" [] ⟨90, 95, [90, 95], true⟩
      [⟨1, "code", 50, 0⟩] ["high_disk_io"]).recommendations ∧
    recDisk ∈ (generate_report "t" [] ⟨90, 95, [90, 95], true⟩
      [⟨1, "code", 50, 0⟩] ["high_disk_io"]).recommendations ∧
    recNet ∉ (generate_report "t" [] ⟨90, 95, [90, 95], true⟩
      [⟨1, "code", 50, 0⟩] ["high_disk_io"]).recommendations := by
  have h := C6_theorem "t" [] ⟨90, 95, [90, 95], true⟩
    [⟨1, "code", 50, 0⟩] ["high_disk_io"]
  refine ⟨h.1.mpr rfl, h.2.1.mpr (by decide), fun hmem => ?_⟩
  have := h.2.2.1.mp hmem
  exact absurd this (by decide)

/-- Whether a counter read produced a value (psutil returned data and
did not raise). -/
def isOkRead {α : Type} : CounterRead α → Bool
  | CounterRead.ok _ => true
  | _ => false

/-- C7: per-metric failures in `detect_secrets_activity` degrade
locally.  The function always evaluates both blocks in sequence; if
the disk read pair is not fully available no disk indicator is
emitted and the result is exactly the network block's output (the
network evaluation still runs); symmetrically for a network failure;
the function returns normally in all cases. -/
theorem C7_theorem (cfg : Config) (d1 d2 : CounterRead DiskCounters)
    (n1 n2 : CounterRead NetCounters) :
    detect_secrets_activity cfg d1 d2 n1 n2
      = diskIndicators cfg.disk_threshold d1 d2
        ++ netIndicators cfg.network_threshold n1 n2 ∧
    ((isOkRead d1 && isOkRead d2) = false →
      diskIndicators cfg.disk_threshold d1 d2 = [] ∧
      "high_disk_io" ∉ detect_secrets_activity cfg d1 d2 n1 n2 ∧
      detect_secrets_activity cfg d1 d2 n1 n2
        = netIndicators cfg.network_threshold n1 n2) ∧
    ((isOkRead n1 && isOkRead n2) = false →
      netIndicators cfg.network_threshold n1 n2 = [] ∧
      "high_network_io" ∉ detect_secrets_activity cfg d1 d2 n1 n2 ∧
      detect_secrets_activity cfg d1 d2 n1 n2
        = diskIndicators cfg.disk_threshold d1 d2) := by
  have hdiskNone : (isOkRead d1 && isOkRead d2) = false →
      diskIndicators cfg.disk_threshold d1 d2 = [] := by
    intro h
    cases d1 <;> cases d2 <;> simp_all [isOkRead, diskIndicators]
  have hnetNone : (isOkRead n1 && isOkRead n2) = false →
      netIndicators cfg.network_threshold n1 n2 = [] := by
    intro h
    cases n1 <;> cases n2 <;> simp_all [isOkRead, netIndicators]
  have hnetNoDisk : "high_disk_io" ∉ netIndicators cfg.network_threshold n1 n2 := by
    cases n1 <;> cases n2 <;> simp [netIndicators]
  have hdiskNoNet : "high_network_io" ∉ diskIndicators cfg.disk_threshold d1 d2 := by
    cases d1 <;> cases d2 <;> simp [diskIndicators]
  refine ⟨rfl, ?_, ?_⟩
  · intro h
    refine ⟨hdiskNone h, ?_, ?_⟩
    · simp only [detect_secrets_activity, hdiskNone h, List.nil_append]
      exact hnetNoDisk
    · simp only [detect_secrets_activity, hdiskNone h, List.nil_append]
  · intro h
    refine ⟨hnetNone h, ?_, ?_⟩
    · simp only [detect_secrets_activity, hnetNone h, List.append_nil]
      exact hdiskNoNet
    · simp only [detect_secrets_activity, hnetNone h, List.append_nil]

/-- C7, witness: with the disk counters raising on the first read
and a network window of 20 MB sent / 15 MB received against a 10 MB
threshold, the run degrades the disk metric, still evaluates the
network metric, and returns exactly the network indicator. -/
theorem C7_theorem_witness :
    detect_secrets_activity ⟨80, 30, 50, 10⟩ CounterRead.err CounterRead.noData
        (CounterRead.ok ⟨0, 0⟩) (CounterRead.ok ⟨20971520, 15728640⟩)
      = netIndicators 10 (CounterRead.ok ⟨0, 0⟩)
          (CounterRead.ok ⟨20971520, 15728640⟩) ∧
    netIndicators 10 (CounterRead.ok ⟨0, 0⟩)
        (CounterRead.ok ⟨20971520, 15728640⟩) = ["high_network_io"] := by
  have h := C7_theorem ⟨80, 30, 50, 10⟩ CounterRead.err CounterRead.noData
    (CounterRead.ok ⟨0, 0⟩) (CounterRead.ok ⟨20971520, 15728640⟩)
  refine ⟨(h.2.1 rfl).2.2, ?_⟩
  simp only [netIndicators]
  rw [if_pos]
  left
  norm_num [sent_delta_mb]

/-- C8: report assembly is deterministic in everything but the
timestamp — two reports assembled from the same injected CPU
analysis, process list, indicator list, and detector extension state
agree on every field except `timestamp`. -/
theorem C8_theorem (t1 t2 : String) (dirs : List String) (cpu : CpuAnalysis)
    (procs : List ProcessData) (inds : List String) :
    (generate_report t1 dirs cpu procs inds).timestamp = t1 ∧
    (generate_report t2 dirs cpu procs inds).timestamp = t2 ∧
    (generate_report t1 dirs cpu procs inds).cpu_analysis
      = (generate_report t2 dirs cpu procs inds).cpu_analysis ∧
    (generate_report t1 dirs cpu procs inds).augment_processes
      = (generate_report t2 dirs cpu procs inds).augment_processes ∧
    (generate_report t1 dirs cpu procs inds).secrets_indicators
      = (generate_report t2 dirs cpu procs inds).secrets_indicators ∧
    (generate_report t1 dirs cpu procs inds).augment_extensions
      = (generate_report t2 dirs cpu procs inds).augment_extensions ∧
    (generate_report t1 dirs cpu procs inds).recommendations
      = (generate_report t2 dirs cpu procs inds).recommendations :=
  ⟨rfl, rfl, rfl, rfl, rfl, rfl, rfl⟩

/-- C9: with `monitoring_duration ≤ 0` the sampling loop body runs
zero times, the reading list is empty, and `monitor_cpu_usage`
fails (division by zero averaging the empty list, modelled as
`none`) instead of returning a degraded analysis; with
`monitoring_duration ≥ 1` exactly `monitoring_duration` readings are
taken (so at least one) and the aggregation is well-defined. -/
theorem C9_theorem (cfg : Config) (env : ℕ → ℚ) :
    (cfg.monitoring_duration ≤ 0 →
      (monitorLoop cfg env).1 = [] ∧ monitor_cpu_usage cfg env = none) ∧
    (1 ≤ cfg.monitoring_duration →
      (monitorLoop cfg env).1.length = cfg.monitoring_duration.toNat ∧
      (monitorLoop cfg env).1 ≠ [] ∧
      ∃ a, monitor_cpu_usage cfg env = some a) := by
  constructor
  · intro h
    have h0 : cfg.monitoring_duration.toNat = 0 := by omega
    have hnil : (monitorLoop cfg env).1 = [] := by
      rw [monitorLoop_spec, h0]
      simp
    refine ⟨hnil, ?_⟩
    simp only [monitor_cpu_usage, hnil]
  · intro h
    have hlen : (monitorLoop cfg env).1.length = cfg.monitoring_duration.toNat := by
      rw [monitorLoop_spec]
      simp
    have hpos : 1 ≤ cfg.monitoring_duration.toNat := by omega
    have hne : (monitorLoop cfg env).1 ≠ [] := by
      intro hc
      rw [hc] at hlen
      simp at hlen
      omega
    refine ⟨hlen, hne, ?_⟩
    rcases hcase : (monitorLoop cfg env).1 with _ | ⟨x, t⟩
    · exact absurd hcase hne
    · exact ⟨⟨(x :: t).sum / ((x :: t).length : ℚ), pyMax (x :: t), x :: t,
        decide (pyMax (x :: t) > cfg.cpu_threshold)⟩,
        by simp only [monitor_cpu_usage, hcase]⟩

/-- C9, witness: duration 0 crashes the aggregation (modelled `none`);
duration 1 returns a successful analysis. -/
theorem C9_theorem_witness :
    monitor_cpu_usage ⟨80, 0, 50, 10⟩ (fun _ => 0) = none ∧
    ∃ a, monitor_cpu_usage ⟨80, 1, 50, 10⟩ (fun _ => 42) = some a := by
  exact ⟨((C9_theorem ⟨80, 0, 50, 10⟩ (fun _ => 0)).1 (by norm_num)).2,
    ((C9_theorem ⟨80, 1, 50, 10⟩ (fun _ => 42)).2 (by norm_num)).2.2⟩

/-- Filesystem for the C10 scenario: one existing extensions root
containing a single directory whose name matches two of the three
glob patterns (`*augment*` and `*Augment*`). -/
def fsC10 : List ConfigDir := [⟨true, [⟨"augmentAugment.ext", true⟩]⟩]

/-- C10: `find_augment_extensions` only ever appends to the
detector's accumulated extension list (first conjunct: the call
returns the prior state followed by the fresh scan, so a second
invocation returns every previously found directory again), and a
single scan appends a directory once per matching pattern: the
C10 directory, matching two patterns, appears twice after one call
and four times after two. -/
theorem C10_theorem :
    (∀ (dirs : List ConfigDir) (st : List String),
      find_augment_extensions dirs st = st ++ find_augment_extensions dirs []) ∧
    find_augment_extensions fsC10 []
      = ["augmentAugment.ext", "augmentAugment.ext"] ∧
    find_augment_extensions fsC10 (find_augment_extensions fsC10 [])
      = ["augmentAugment.ext", "augmentAugment.ext",
         "augmentAugment.ext", "augmentAugment.ext"] := by
  refine ⟨find_append, by decide, by decide⟩

end AugmentDetector
